import Mathlib

/-!
Shallow embedding of `pkg/skaffold/actions/k8sjob/exec_env.go` (skaffold):
the k8s-job execution environment that turns named action configurations
into tracked Job-based tasks.  Go maps are modelled as association lists
with overwrite-on-insert, Go errors as an explicit result type, and the
side effects on the logging/tracking collaborator as an event trace.
-/

namespace K8sJob

/-- Association-list lookup, mirroring Go map indexing `m[k]`. -/
def mapLookup {α : Type} : List (String × α) → String → Option α
  | [], _ => none
  | (k', v') :: rest, k => if k' = k then some v' else mapLookup rest k

/-- Association-list insert, mirroring Go map assignment `m[k] = v`
(overwrites an existing binding for the key). -/
def mapInsert {α : Type} : List (String × α) → String → α → List (String × α)
  | [], k, v => [(k, v)]
  | (k', v') :: rest, k, v =>
      if k' = k then (k, v) :: rest else (k', v') :: mapInsert rest k v

/-- `graph.Artifact`: an image name paired with the tag to deploy
(fields as used throughout `exec_env.go`). -/
structure Artifact where
  ImageName : String
  Tag : String
deriving DecidableEq, Repr

/-- `latest.VerifyContainer` (the fields `createTasks` and
`getArtifactToDeploy` read): declared image and logical container name. -/
structure VerifyContainer where
  Name : String
  Image : String
deriving DecidableEq, Repr

/-- `latest.Action`, flattened to the fields `createActions` dereferences:
`Name`, `Containers`, `*Config.Timeout`, `*Config.IsFailFast`,
`ExecutionModeConfig.KubernetesClusterExecutionMode.JobManifestPath` and
`.Overrides`. -/
structure LatestAction where
  Name : String
  Containers : List VerifyContainer
  Timeout : Int
  IsFailFast : Bool
  JobManifestPath : String
  Overrides : String
deriving DecidableEq, Repr

/-- `corev1.PodSpec`, restricted to the field `setDefaultValues` writes. -/
structure PodSpec where
  RestartPolicy : String
deriving DecidableEq, Repr

/-- `corev1.PodTemplateSpec`: labels (a possibly-nil Go map, hence
`Option`) and the pod spec. -/
structure PodTemplateSpec where
  Labels : Option (List (String × String))
  Spec : PodSpec
deriving DecidableEq, Repr

/-- `batchv1.JobSpec`, restricted to the fields `exec_env.go` touches:
the pod template and the backoff limit (`*int32`, hence `Option`). -/
structure JobSpec where
  Template : PodTemplateSpec
  BackoffLimit : Option Int
deriving DecidableEq, Repr

/-- `batchv1.Job`, restricted to the fields `exec_env.go` touches:
namespace, labels (possibly-nil Go map) and spec. -/
structure Job where
  Namespace : String
  Labels : Option (List (String × String))
  Spec : JobSpec
deriving DecidableEq, Repr

/-- Modelled from the spec: the override applier returns a generic
runtime object that is expected, but not statically guaranteed, to be a
Job (`k8sjobutil.ApplyOverrides` returns `runtime.Object`). -/
inductive RuntimeObject where
  | job (j : Job)
  | other (kind : String)
deriving DecidableEq, Repr

/-- Outcome of running a piece of Go code: normal value, returned
error, or runtime panic (a failed type assertion). -/
inductive ExecResult (α : Type) where
  | ok (val : α)
  | err (msg : String)
  | panics (msg : String)
deriving DecidableEq, Repr

/-- Modelled from the spec: observable side effects on the external
collaborators of `ExecEnv` — the cluster reachability probe, starting the
log streamer, and registering tracked artifacts with it (spec section 6). -/
inductive Event where
  | clusterProbe
  | loggerStart
  | composeManifest (actionName : String)
  | registerArtifacts (arts : List Artifact)
deriving DecidableEq, Repr

/-- Modelled from the spec: the results of the external collaborators
consumed by `exec_env.go` (spec section 6) — the reachability probe
(`kubernetes.FailIfClusterIsNotReachable`), the manifest loader
(`k8sjobutil.LoadFromPath` / `GetGenericJob`) and the override applier
(`k8sjobutil.ApplyOverrides`). -/
structure Collabs where
  reachabilityErr : Option String
  LoadFromPath : String → Except String Job
  GetGenericJob : Job
  ApplyOverrides : Job → String → Except String RuntimeObject

/-- `ExecEnv`: collaborators, namespace, the labeller's run identifier
(`labeller.GetRunID()`), the name-to-config registry and the global env
variables. -/
structure ExecEnv where
  collabs : Collabs
  Namespace : String
  runID : String
  acsCfgByName : List (String × LatestAction)
  envVars : List (String × String)

/-- `newExecEnv`: defaults an empty namespace to "default" and builds the
name-to-config registry by inserting each configured action in order. -/
def newExecEnv (collabs : Collabs) (runID : String) (ns : String)
    (envMap : List (String × String)) (acs : List LatestAction) : ExecEnv :=
  let ns := if ns = "" then "default" else ns
  { collabs := collabs
    Namespace := ns
    runID := runID
    acsCfgByName := acs.foldl (fun m a => mapInsert m a.Name a) []
    envVars := envMap }

/-- Modelled from the spec: a Task packages the container config, the
shared namespace, the resolved artifact and a copy of the composed Job
manifest (the cluster-client handle and environment back-reference are
opaque; spec section 3). -/
structure Task where
  cfg : VerifyContainer
  Namespace : String
  artifact : Artifact
  jobManifest : Job
deriving DecidableEq, Repr

/-- `NewTask` (constructor of the task unit; the kubectl handle and the
environment back-reference carry no data the claims observe). -/
def NewTask (cCfg : VerifyContainer) (ns : String) (art : Artifact)
    (jobManifest : Job) : Task :=
  { cfg := cCfg, Namespace := ns, artifact := art, jobManifest := jobManifest }

/-- Modelled from the spec: `actions.Action` — name, ordered tasks,
timeout and fail-fast flag (spec section 3). -/
structure Action where
  name : String
  timeout : Int
  isFailFast : Bool
  tasks : List Task
deriving DecidableEq, Repr

/-- `actions.NewAction` as called from `createActions`. -/
def NewAction (name : String) (timeout : Int) (isFailFast : Bool)
    (tasks : List Task) : Action :=
  { name := name, timeout := timeout, isFailFast := isFailFast, tasks := tasks }

/-- `getArtifactToDeploy`: resolve a container's declared image against
the built-artifacts map, falling back to the image name as the tag. -/
def getArtifactToDeploy (e : ExecEnv) (builtArtifacts : List (String × Artifact))
    (cfg : VerifyContainer) : Artifact :=
  let ba := mapLookup builtArtifacts cfg.Image
  let artToDeploy : Artifact := { ImageName := cfg.Image, Tag := cfg.Image }
  match ba with
  | some ba => { artToDeploy with Tag := ba.Tag }
  | none => artToDeploy

/-- `getBaseJobManifest`: builtin generic Job when the path is empty,
otherwise load from the path. -/
def getBaseJobManifest (e : ExecEnv) (jobManifestPath : String) : ExecResult Job :=
  if jobManifestPath = "" then .ok e.collabs.GetGenericJob
  else
    match e.collabs.LoadFromPath jobManifestPath with
    | .ok j => .ok j
    | .error m => .err m

/-- `applyOverrides`: empty override passes the base through; otherwise
apply the override and coerce the result with the unchecked Go type
assertion `obj.(*batchv1.Job)`, which panics on a non-Job result. -/
def applyOverrides (e : ExecEnv) (job : Job) (overrides : String) : ExecResult Job :=
  if overrides = "" then .ok job
  else
    match e.collabs.ApplyOverrides job overrides with
    | .error m => .err m
    | .ok (.job j) => .ok j
    | .ok (.other kind) =>
        .panics ("interface conversion: runtime.Object is " ++ kind ++ ", not *v1.Job")

/-- The run-correlation label key written by `setDefaultValues`. -/
def runIDLabel : String := "skaffold.dev/run-id"

/-- `setDefaultValues`: ensure both label maps exist, default the
namespace, force the run-id label on both maps, pod restart policy
"Never" and backoff limit 0. -/
def setDefaultValues (e : ExecEnv) (job : Job) : Job :=
  let job := if job.Labels = none then { job with Labels := some [] } else job
  let job :=
    if job.Spec.Template.Labels = none then
      { job with Spec.Template.Labels := some [] }
    else job
  let job := if job.Namespace = "" then { job with Namespace := e.Namespace } else job
  let jobLabels := some (mapInsert (job.Labels.getD []) runIDLabel e.runID)
  let job := { job with Labels := jobLabels }
  let tplLabels := some (mapInsert (job.Spec.Template.Labels.getD []) runIDLabel e.runID)
  let job := { job with Spec.Template.Labels := tplLabels }
  let job := { job with Spec.Template.Spec.RestartPolicy := "Never" }
  { job with Spec.BackoffLimit := some 0 }

/-- `getJobManifest`: base manifest, then overrides, then defaults. -/
def getJobManifest (e : ExecEnv) (jobManifestPath overrides : String) : ExecResult Job :=
  match getBaseJobManifest e jobManifestPath with
  | .err m => .err m
  | .panics m => .panics m
  | .ok job =>
      match applyOverrides e job overrides with
      | .err m => .err m
      | .panics m => .panics m
      | .ok job => .ok (setDefaultValues e job)

/-- `createTasks`: one task and one tracked artifact per container, in
container-declaration order. -/
def createTasks (e : ExecEnv) (aCfg : LatestAction) (jobManifest : Job)
    (builtArtifacts : List (String × Artifact)) : List Task × List Artifact :=
  (aCfg.Containers.map fun cCfg =>
      NewTask cCfg e.Namespace (getArtifactToDeploy e builtArtifacts cCfg) jobManifest,
   aCfg.Containers.map fun cCfg => { ImageName := cCfg.Image, Tag := cCfg.Name })

/-- Loop body of `createActions` over the requested action names:
look up each config, compose its manifest (recorded as a
`composeManifest` event), build its tasks, and accumulate actions and
tracked artifacts; the first failure aborts the batch. -/
def createActionsLoop (e : ExecEnv) (builtArtifacts : List (String × Artifact)) :
    List String → List Event × ExecResult (List Action × List Artifact)
  | [] => ([], .ok ([], []))
  | aName :: rest =>
      match mapLookup e.acsCfgByName aName with
      | none => ([], .err ("action " ++ aName ++ " not found for k8s execution mode"))
      | some aCfg =>
          match getJobManifest e aCfg.JobManifestPath aCfg.Overrides with
          | .err m => ([.composeManifest aName], .err m)
          | .panics m => ([.composeManifest aName], .panics m)
          | .ok jm =>
              match createActionsLoop e builtArtifacts rest with
              | (evs, .ok (acs, toTrack)) =>
                  (.composeManifest aName :: evs,
                   .ok (NewAction aCfg.Name aCfg.Timeout aCfg.IsFailFast
                          (createTasks e aCfg jm builtArtifacts).1 :: acs,
                        (createTasks e aCfg jm builtArtifacts).2 ++ toTrack))
              | (evs, .err m) => (.composeManifest aName :: evs, .err m)
              | (evs, .panics m) => (.composeManifest aName :: evs, .panics m)

/-- `createActions`: build the built-artifacts map (later duplicates
overwrite earlier ones), run the loop, and on success register the
accumulated tracked artifacts once with the logger. -/
def createActions (e : ExecEnv) (bs : List Artifact) (acsNames : List String) :
    List Event × ExecResult (List Action) :=
  let builtArtifacts := bs.foldl (fun m b => mapInsert m b.ImageName b) []
  match createActionsLoop e builtArtifacts acsNames with
  | (evs, .ok (acs, toTrack)) => (evs ++ [.registerArtifacts toTrack], .ok acs)
  | (evs, .err m) => (evs, .err m)
  | (evs, .panics m) => (evs, .panics m)

/-- `PrepareActions`: probe cluster reachability first; on failure wrap
the probe's error; on success start the log streamer and delegate to
`createActions`. -/
def PrepareActions (e : ExecEnv) (bs : List Artifact) (acsNames : List String) :
    List Event × ExecResult (List Action) :=
  match e.collabs.reachabilityErr with
  | some m => ([.clusterProbe], .err ("unable to connect to Kubernetes: " ++ m))
  | none =>
      let res := createActions e bs acsNames
      (.clusterProbe :: .loggerStart :: res.1, res.2)

/-- A concrete base Job used to instantiate witnesses. -/
def sampleBaseJob : Job :=
  { Namespace := ""
    Labels := none
    Spec :=
      { Template := { Labels := none, Spec := { RestartPolicy := "" } }
        BackoffLimit := none } }

/-- Concrete, well-behaved collaborator results used by witnesses:
reachable cluster, total loader, override applier that returns its input
Job unchanged. -/
def sampleCollabs : Collabs :=
  { reachabilityErr := none
    LoadFromPath := fun _ => Except.ok sampleBaseJob
    GetGenericJob := sampleBaseJob
    ApplyOverrides := fun j _ => Except.ok (RuntimeObject.job j) }

/-- A concrete action configuration with one container, used by witnesses. -/
def sampleVerifyCfg : LatestAction :=
  { Name := "verify"
    Containers := [VerifyContainer.mk "t1" "app"]
    Timeout := 60
    IsFailFast := true
    JobManifestPath := ""
    Overrides := "" }

/-- A concrete execution environment built by `newExecEnv`, used by
witnesses. -/
def sampleEnv : ExecEnv :=
  newExecEnv sampleCollabs "run-1" "" [] [sampleVerifyCfg]

/-- Last element of the built-artifacts list whose image name is `k`
(specification device for the map-overwrite semantics). -/
def lastMatch : List Artifact → String → Option Artifact
  | [], _ => none
  | b :: rest, k =>
      match lastMatch rest k with
      | some x => some x
      | none => if b.ImageName = k then some b else none

/-- Label lookup on a possibly-nil Go label map. -/
def labelOf (l : Option (List (String × String))) (k : String) : Option String :=
  mapLookup (l.getD []) k

/-- True exactly on the returned-error outcome. -/
def ExecResult.isErr {α : Type} : ExecResult α → Bool
  | .err _ => true
  | _ => false

/-- True exactly on the panic outcome. -/
def ExecResult.isPanic {α : Type} : ExecResult α → Bool
  | .panics _ => true
  | _ => false

/-- True exactly on a tracking-registration event. -/
def Event.isRegister : Event → Bool
  | .registerArtifacts _ => true
  | _ => false

/-- True exactly on a manifest-composition event. -/
def Event.isCompose : Event → Bool
  | .composeManifest _ => true
  | _ => false

/-- Number of tracking-registration calls recorded in a trace. -/
def countRegister (evs : List Event) : Nat :=
  (evs.filter Event.isRegister).length

/-- The tracked artifacts carried by a list of assembled actions: one
(declared image name, logical container name) pair per task. -/
def trackedOfActions (acs : List Action) : List Artifact :=
  acs.flatMap fun a => a.tasks.map fun t => { ImageName := t.cfg.Image, Tag := t.cfg.Name }

/-- The manifest `getJobManifest` composes in the sample environment. -/
def sampleComposedJob : Job :=
  { Namespace := "default"
    Labels := some [(runIDLabel, "run-1")]
    Spec :=
      { Template :=
          { Labels := some [(runIDLabel, "run-1")]
            Spec := { RestartPolicy := "Never" } }
        BackoffLimit := some 0 } }

/-- Collaborators whose override applier violates its contract and
returns a non-Job resource. -/
def badOverrideCollabs : Collabs :=
  { sampleCollabs with ApplyOverrides := fun _ _ => Except.ok (RuntimeObject.other "*v1.Pod") }

/-- Environment wired to the contract-violating override applier. -/
def badOverrideEnv : ExecEnv :=
  newExecEnv badOverrideCollabs "run-1" "" [] []

/-- Environment whose cluster-reachability probe fails. -/
def unreachableEnv : ExecEnv :=
  newExecEnv { sampleCollabs with reachabilityErr := some "connection refused" }
    "run-1" "" [] [sampleVerifyCfg]

/-- The actions the sample environment builds for `["verify"]` with no
built artifacts (tag falls back to the image name). -/
def sampleActions : List Action :=
  [NewAction "verify" 60 true
    [NewTask (VerifyContainer.mk "t1" "app") "default" (Artifact.mk "app" "app")
      sampleComposedJob]]

/-- Lookup of the key a Go-map assignment just wrote, and of others. -/
theorem mapLookup_mapInsert {α : Type} (m : List (String × α)) (k k' : String) (v : α) :
    mapLookup (mapInsert m k v) k' = if k = k' then some v else mapLookup m k' := by
  induction m with
  | nil => simp [mapInsert, mapLookup]
  | cons p rest ih =>
    obtain ⟨k₀, v₀⟩ := p
    by_cases h : k₀ = k
    · subst h
      by_cases h' : k₀ = k'
      · subst h'
        simp [mapInsert, mapLookup]
      · simp [mapInsert, mapLookup, h']
    · by_cases h' : k₀ = k'
      · subst h'
        have hk : k ≠ k₀ := fun hh => h hh.symm
        simp [mapInsert, mapLookup, h, hk]
      · simp [mapInsert, mapLookup, h, h', ih]

/-- Looking up the map folded from a built-artifacts list finds the last
occurrence of the key, falling back to the initial map. -/
theorem mapLookup_foldl_mapInsert (bs : List Artifact) (m : List (String × Artifact))
    (k : String) :
    mapLookup (bs.foldl (fun m b => mapInsert m b.ImageName b) m) k =
      (match lastMatch bs k with
       | some b => some b
       | none => mapLookup m k) := by
  induction bs generalizing m with
  | nil => simp [lastMatch]
  | cons b rest ih =>
    rw [List.foldl_cons, ih]
    cases hrest : lastMatch rest k with
    | some x => simp [lastMatch, hrest]
    | none =>
      rw [mapLookup_mapInsert]
      by_cases h : b.ImageName = k
      · simp [lastMatch, hrest, h]
      · simp [lastMatch, hrest, h]

/-- Closed form of `setDefaultValues`: namespace defaulted, run-id label
inserted over the (possibly created) label maps, restart policy and
backoff limit forced. -/
theorem setDefaultValues_eq (e : ExecEnv) (job : Job) :
    setDefaultValues e job =
      { Namespace := if job.Namespace = "" then e.Namespace else job.Namespace
        Labels := some (mapInsert (job.Labels.getD []) runIDLabel e.runID)
        Spec :=
          { Template :=
              { Labels :=
                  some (mapInsert (job.Spec.Template.Labels.getD []) runIDLabel e.runID)
                Spec := { RestartPolicy := "Never" } }
            BackoffLimit := some 0 } } := by
  obtain ⟨ns, lbls, ⟨⟨tl, ⟨rp⟩⟩, bo⟩⟩ := job
  unfold setDefaultValues
  by_cases h1 : lbls = none <;> by_cases h2 : tl = none <;> by_cases h3 : ns = "" <;>
    simp [h1, h2, h3]

/-- The environment namespace produced by `newExecEnv` is never empty. -/
theorem newExecEnv_Namespace_ne (collabs : Collabs) (runID ns : String)
    (envMap : List (String × String)) (acs : List LatestAction) :
    (newExecEnv collabs runID ns envMap acs).Namespace ≠ "" := by
  unfold newExecEnv
  by_cases h : ns = "" <;> simp [h]

/-- Every event the action-build loop records is a manifest composition
(the loop itself never registers tracking artifacts, starts the logger,
or probes the cluster). -/
theorem createActionsLoop_events (e : ExecEnv) (m : List (String × Artifact))
    (names : List String) :
    ∀ ev ∈ (createActionsLoop e m names).1, ev.isCompose = true := by
  induction names with
  | nil =>
    intro ev hev
    simp [createActionsLoop] at hev
  | cons aName rest ih =>
    intro ev hev
    unfold createActionsLoop at hev
    split at hev
    · simp at hev
    · split at hev
      · simp at hev
        simp [hev, Event.isCompose]
      · simp at hev
        simp [hev, Event.isCompose]
      · split at hev
        case _ evs acsTrack heq =>
          simp at hev
          rcases hev with hev | hev
          · simp [hev, Event.isCompose]
          · exact ih ev (by rw [heq]; exact hev)
        case _ evs msg heq =>
          simp at hev
          rcases hev with hev | hev
          · simp [hev, Event.isCompose]
          · exact ih ev (by rw [heq]; exact hev)
        case _ evs msg heq =>
          simp at hev
          rcases hev with hev | hev
          · simp [hev, Event.isCompose]
          · exact ih ev (by rw [heq]; exact hev)

/-- A trace of composition events contains no registration. -/
theorem countRegister_of_compose (evs : List Event)
    (h : ∀ ev ∈ evs, ev.isCompose = true) : countRegister evs = 0 := by
  unfold countRegister
  rw [List.length_eq_zero, List.filter_eq_nil_iff]
  intro ev hev
  have hc := h ev hev
  cases ev <;> simp_all [Event.isCompose, Event.isRegister]

/-- On a successful loop run, the accumulated tracked artifacts are
exactly the per-container (image name, container name) pairs of the
assembled actions, in order. -/
theorem createActionsLoop_tracked (e : ExecEnv) (m : List (String × Artifact)) :
    ∀ (names : List String) (evs : List Event) (acs : List Action) (toTrack : List Artifact),
      createActionsLoop e m names = (evs, .ok (acs, toTrack)) →
      toTrack = trackedOfActions acs := by
  intro names
  induction names with
  | nil =>
    intro evs acs toTrack h
    simp [createActionsLoop] at h
    rcases h with ⟨-, h2, h3⟩
    subst h2
    subst h3
    simp [trackedOfActions]
  | cons aName rest ih =>
    intro evs acs toTrack h
    unfold createActionsLoop at h
    split at h
    · simp at h
    · split at h
      · simp at h
      · simp at h
      · split at h
        case _ jm evs' acs' toTrack' heq =>
          simp at h
          rcases h with ⟨-, h2, h3⟩
          subst h2
          subst h3
          have ih' := ih evs' acs' toTrack' heq
          subst ih'
          simp [trackedOfActions, createTasks, NewTask, NewAction, List.map_map,
            Function.comp]
        case _ evs' msg heq => simp at h
        case _ evs' msg heq => simp at h

/-- On a successful loop run, the assembled actions correspond
index-wise to the requested names: each carries its config's name,
timeout and fail-fast flag, and its tasks are the config's containers in
declaration order. -/
theorem createActionsLoop_ok_struct (e : ExecEnv) (m : List (String × Artifact)) :
    ∀ (names : List String) (evs : List Event) (acs : List Action) (toTrack : List Artifact),
      createActionsLoop e m names = (evs, .ok (acs, toTrack)) →
      acs.length = names.length ∧
      ∀ i (hi : i < names.length) (hi' : i < acs.length),
        ∃ aCfg, mapLookup e.acsCfgByName (names.get ⟨i, hi⟩) = some aCfg ∧
          (acs.get ⟨i, hi'⟩).name = aCfg.Name ∧
          (acs.get ⟨i, hi'⟩).timeout = aCfg.Timeout ∧
          (acs.get ⟨i, hi'⟩).isFailFast = aCfg.IsFailFast ∧
          (acs.get ⟨i, hi'⟩).tasks.map Task.cfg = aCfg.Containers := by
  intro names
  induction names with
  | nil =>
    intro evs acs toTrack h
    simp [createActionsLoop] at h
    rcases h with ⟨-, h2, -⟩
    subst h2
    exact ⟨rfl, fun i hi => absurd hi (by simp)⟩
  | cons aName rest ih =>
    intro evs acs toTrack h
    unfold createActionsLoop at h
    split at h
    · simp at h
    case _ aCfg hlk =>
      split at h
      · simp at h
      · simp at h
      case _ jm hjm =>
        split at h
        case _ evs' acs' toTrack' heq =>
          simp at h
          rcases h with ⟨-, h2, -⟩
          subst h2
          have ih' := ih evs' acs' toTrack' heq
          refine ⟨by simp [ih'.1], ?_⟩
          intro i hi hi'
          cases i with
          | zero =>
            refine ⟨aCfg, hlk, ?_, ?_, ?_, ?_⟩ <;>
              simp [NewAction, createTasks, NewTask, List.map_map, Function.comp_def]
          | succ i =>
            have hi2 : i < rest.length := by simpa using hi
            have hi2' : i < acs'.length := by simpa using hi'
            simpa using ih'.2 i hi2 hi2'
        case _ evs' msg heq => simp at h
        case _ evs' msg heq => simp at h

/-- When every name before a missing one resolves and composes
successfully, the loop stops at the missing name: it records the
compositions of the earlier names only, touches none of the later names,
and fails with the "action not found" error naming the missing action. -/
theorem createActionsLoop_missing (e : ExecEnv) (m : List (String × Artifact)) :
    ∀ (pre : List String) (aName : String) (post : List String),
      mapLookup e.acsCfgByName aName = none →
      (∀ n ∈ pre, ∃ aCfg, mapLookup e.acsCfgByName n = some aCfg ∧
        ∃ jm, getJobManifest e aCfg.JobManifestPath aCfg.Overrides = ExecResult.ok jm) →
      createActionsLoop e m (pre ++ aName :: post) =
        (pre.map Event.composeManifest,
         .err ("action " ++ aName ++ " not found for k8s execution mode")) := by
  intro pre
  induction pre with
  | nil =>
    intro aName post hmiss hpre
    simp [createActionsLoop, hmiss]
  | cons n pre' ih =>
    intro aName post hmiss hpre
    obtain ⟨aCfg, hlk, jm, hjm⟩ := hpre n (by simp)
    have ih' := ih aName post hmiss (fun x hx => hpre x (by simp [hx]))
    simp only [List.cons_append, createActionsLoop, hlk, hjm, List.map_cons]
    rw [show pre'.append (aName :: post) = pre' ++ aName :: post from rfl, ih']

/-- C4: `getArtifactToDeploy` always keeps the container's declared image
name; the tag is the built artifact's tag when the built-artifacts map
contains the declared image name, and the declared image name itself
otherwise. -/
theorem c4_artifact_binding (e : ExecEnv) (builtArtifacts : List (String × Artifact))
    (cfg : VerifyContainer) :
    getArtifactToDeploy e builtArtifacts cfg =
      (match mapLookup builtArtifacts cfg.Image with
       | some ba => { ImageName := cfg.Image, Tag := ba.Tag }
       | none => { ImageName := cfg.Image, Tag := cfg.Image }) := by
  unfold getArtifactToDeploy
  cases mapLookup builtArtifacts cfg.Image <;> rfl

/-- C8: `createTasks` emits exactly one tracked artifact per container of
the action, in container order, pairing the container's declared image
name with its logical name (never the resolved build tag). -/
theorem c8_tracked_artifacts (e : ExecEnv) (aCfg : LatestAction) (jobManifest : Job)
    (builtArtifacts : List (String × Artifact)) :
    (createTasks e aCfg jobManifest builtArtifacts).2 =
      aCfg.Containers.map (fun cCfg => { ImageName := cCfg.Image, Tag := cCfg.Name }) :=
  rfl

/-- C10: the built-artifacts map is folded with overwrite-on-insert, so
when the list holds several entries for the same image name the last
occurrence in list order determines the tag bound to a container
(duplicates are handled totally, never as an error). -/
theorem c10_last_duplicate_wins (e : ExecEnv) (bs : List Artifact)
    (cfg : VerifyContainer) (b : Artifact) (h : lastMatch bs cfg.Image = some b) :
    getArtifactToDeploy e (bs.foldl (fun m b => mapInsert m b.ImageName b) []) cfg =
      { ImageName := cfg.Image, Tag := b.Tag } := by
  unfold getArtifactToDeploy
  rw [mapLookup_foldl_mapInsert, h]

/-- Witness for C10 at a concrete duplicated list: the second "app" entry
(tag "v2") wins. -/
theorem c10_last_duplicate_wins_witness :
    getArtifactToDeploy sampleEnv
        ([Artifact.mk "app" "v1", Artifact.mk "app" "v2"].foldl
          (fun m b => mapInsert m b.ImageName b) [])
        (VerifyContainer.mk "t1" "app") =
      { ImageName := "app", Tag := "v2" } :=
  c10_last_duplicate_wins sampleEnv [Artifact.mk "app" "v1", Artifact.mk "app" "v2"]
    (VerifyContainer.mk "t1" "app") (Artifact.mk "app" "v2") (by decide)

/-- C3: every manifest successfully composed by `getJobManifest` in an
environment built by `newExecEnv` has a non-empty namespace, non-nil
label maps on the Job and its pod template, the run-correlation label
"skaffold.dev/run-id" set to the labeller's run identifier on both maps
(overwriting base/override values), restart policy "Never" and backoff
limit zero. -/
theorem c3_composed_manifest_defaults (collabs : Collabs) (runID ns : String)
    (envMap : List (String × String)) (acs : List LatestAction)
    (jobManifestPath overrides : String) (jm : Job)
    (h : getJobManifest (newExecEnv collabs runID ns envMap acs) jobManifestPath overrides =
      ExecResult.ok jm) :
    jm.Namespace ≠ "" ∧ jm.Labels ≠ none ∧ jm.Spec.Template.Labels ≠ none ∧
    labelOf jm.Labels runIDLabel = some runID ∧
    labelOf jm.Spec.Template.Labels runIDLabel = some runID ∧
    jm.Spec.Template.Spec.RestartPolicy = "Never" ∧
    jm.Spec.BackoffLimit = some 0 := by
  unfold getJobManifest at h
  split at h
  · exact absurd h (by simp)
  · exact absurd h (by simp)
  case _ job hbase =>
    split at h
    · exact absurd h (by simp)
    · exact absurd h (by simp)
    case _ job' hov =>
      have hjm : jm = setDefaultValues (newExecEnv collabs runID ns envMap acs) job' := by
        cases h
        rfl
      subst hjm
      rw [setDefaultValues_eq]
      have hrid : (newExecEnv collabs runID ns envMap acs).runID = runID := rfl
      refine ⟨?_, by simp, by simp, ?_, ?_, rfl, rfl⟩
      · by_cases hjn : job'.Namespace = ""
        · rw [if_pos hjn]
          exact newExecEnv_Namespace_ne collabs runID ns envMap acs
        · rw [if_neg hjn]
          exact hjn
      · simp [labelOf, mapLookup_mapInsert, hrid]
      · simp [labelOf, mapLookup_mapInsert, hrid]

/-- Witness for C3: composing in the sample environment (empty path and
override) yields the concrete defaulted manifest properties. -/
theorem c3_composed_manifest_defaults_witness :
    (getJobManifest (newExecEnv sampleCollabs "run-1" "" [] [sampleVerifyCfg]) "" "" =
        ExecResult.ok sampleComposedJob) ∧
    sampleComposedJob.Namespace ≠ "" ∧ sampleComposedJob.Spec.BackoffLimit = some 0 :=
  ⟨by decide,
   (c3_composed_manifest_defaults sampleCollabs "run-1" "" [] [sampleVerifyCfg] "" ""
      sampleComposedJob (by decide)).1,
   (c3_composed_manifest_defaults sampleCollabs "run-1" "" [] [sampleVerifyCfg] "" ""
      sampleComposedJob (by decide)).2.2.2.2.2.2⟩

/-- `getBaseJobManifest` depends on the environment only through the
loader results for the given path. -/
theorem getBaseJobManifest_congr (e₁ e₂ : ExecEnv) (p : String)
    (hgen : e₁.collabs.GetGenericJob = e₂.collabs.GetGenericJob)
    (hload : e₁.collabs.LoadFromPath p = e₂.collabs.LoadFromPath p) :
    getBaseJobManifest e₁ p = getBaseJobManifest e₂ p := by
  unfold getBaseJobManifest
  by_cases hp : p = ""
  · simp [hp, hgen]
  · simp [hp, hload]

/-- `applyOverrides` depends on the environment only through the override
applier's result. -/
theorem applyOverrides_congr (e₁ e₂ : ExecEnv) (o : String) (j : Job)
    (hov : e₁.collabs.ApplyOverrides j o = e₂.collabs.ApplyOverrides j o) :
    applyOverrides e₁ j o = applyOverrides e₂ j o := by
  unfold applyOverrides
  by_cases ho : o = ""
  · simp [ho]
  · simp [ho, hov]

/-- C9: composition is deterministic — two environments agreeing on
namespace, run identifier and the collaborator results for the given
path and override compose identical manifests for that path and
override. -/
theorem c9_composition_deterministic (e₁ e₂ : ExecEnv) (p o : String)
    (hns : e₁.Namespace = e₂.Namespace) (hrid : e₁.runID = e₂.runID)
    (hgen : e₁.collabs.GetGenericJob = e₂.collabs.GetGenericJob)
    (hload : e₁.collabs.LoadFromPath p = e₂.collabs.LoadFromPath p)
    (hov : ∀ j, e₁.collabs.ApplyOverrides j o = e₂.collabs.ApplyOverrides j o) :
    getJobManifest e₁ p o = getJobManifest e₂ p o := by
  unfold getJobManifest
  rw [getBaseJobManifest_congr e₁ e₂ p hgen hload]
  have hov' : ∀ j, applyOverrides e₁ j o = applyOverrides e₂ j o :=
    fun j => applyOverrides_congr e₁ e₂ o j (hov j)
  have hsd : ∀ j, setDefaultValues e₁ j = setDefaultValues e₂ j := fun j => by
    simp [setDefaultValues_eq, hns, hrid]
  cases getBaseJobManifest e₂ p with
  | err m => rfl
  | panics m => rfl
  | ok job => simp only [hov' job, hsd]

/-- Witness for C9: two syntactically distinct environments with the same
namespace, run id and collaborator results compose the same manifest. -/
theorem c9_composition_deterministic_witness :
    getJobManifest (newExecEnv sampleCollabs "run-1" "" [] [sampleVerifyCfg]) "" "" =
      getJobManifest (newExecEnv sampleCollabs "run-1" "" [] []) "" "" :=
  c9_composition_deterministic _ _ "" "" rfl rfl rfl rfl (fun _ => rfl)

/-- C2 counterexample: when the override applier returns a non-Job
resource, `getJobManifest` does not return an error — the unchecked Go
type assertion `obj.(*batchv1.Job)` panics. -/
theorem c2_counterexample :
    (getJobManifest badOverrideEnv "" "spec: 1").isErr = false ∧
    (getJobManifest badOverrideEnv "" "spec: 1").isPanic = true := by
  decide

/-- C2 amended: if the override payload is non-empty and the override
applier returns a non-Job resource, manifest composition panics with the
type-assertion message instead of returning an error. -/
theorem c2_amended_nonjob_override_panics (e : ExecEnv)
    (jobManifestPath overrides : String) (job : Job) (kind : String)
    (ho : overrides ≠ "")
    (hb : getBaseJobManifest e jobManifestPath = ExecResult.ok job)
    (h : e.collabs.ApplyOverrides job overrides = Except.ok (RuntimeObject.other kind)) :
    getJobManifest e jobManifestPath overrides =
      ExecResult.panics ("interface conversion: runtime.Object is " ++ kind ++ ", not *v1.Job") := by
  unfold getJobManifest
  rw [hb]
  unfold applyOverrides
  simp [ho, h]

/-- Witness for the amended C2 at the contract-violating environment. -/
theorem c2_amended_nonjob_override_panics_witness :
    getJobManifest badOverrideEnv "" "spec: 1" =
      ExecResult.panics "interface conversion: runtime.Object is *v1.Pod, not *v1.Job" :=
  c2_amended_nonjob_override_panics badOverrideEnv "" "spec: 1" sampleBaseJob "*v1.Pod"
    (by decide) (by decide) rfl

/-- C1: on a successful batch build the tracking registration happens
exactly once, as the last recorded side effect, with the accumulated
tracked artifacts of all assembled actions; if any lookup or manifest
composition fails (error or panic), no registration is ever recorded and
no action list is returned. -/
theorem c1_batch_atomic_registration (e : ExecEnv) (bs : List Artifact)
    (acsNames : List String) :
    (∀ acs, (createActions e bs acsNames).2 = ExecResult.ok acs →
       ∃ evs, (createActions e bs acsNames).1 =
           evs ++ [Event.registerArtifacts (trackedOfActions acs)] ∧
         countRegister evs = 0) ∧
    (∀ m, (createActions e bs acsNames).2 = ExecResult.err m →
       countRegister (createActions e bs acsNames).1 = 0) ∧
    (∀ m, (createActions e bs acsNames).2 = ExecResult.panics m →
       countRegister (createActions e bs acsNames).1 = 0) := by
  rcases hloop : createActionsLoop e (bs.foldl (fun m b => mapInsert m b.ImageName b) [])
      acsNames with ⟨evs, res⟩
  have hevs := createActionsLoop_events e
    (bs.foldl (fun m b => mapInsert m b.ImageName b) []) acsNames
  rw [hloop] at hevs
  cases res with
  | ok p =>
    obtain ⟨acs', toTrack⟩ := p
    have htr := createActionsLoop_tracked e
      (bs.foldl (fun m b => mapInsert m b.ImageName b) []) acsNames evs acs' toTrack hloop
    have hca : createActions e bs acsNames =
        (evs ++ [Event.registerArtifacts toTrack], ExecResult.ok acs') := by
      simp only [createActions]
      rw [hloop]
    refine ⟨?_, ?_, ?_⟩
    · intro acs h
      rw [hca] at h
      simp at h
      subst h
      exact ⟨evs, by rw [hca, htr], countRegister_of_compose evs hevs⟩
    · intro m h
      rw [hca] at h
      simp at h
    · intro m h
      rw [hca] at h
      simp at h
  | err msg =>
    have hca : createActions e bs acsNames = (evs, ExecResult.err msg) := by
      simp only [createActions]
      rw [hloop]
    refine ⟨?_, ?_, ?_⟩
    · intro acs h
      rw [hca] at h
      simp at h
    · intro m h
      rw [hca]
      exact countRegister_of_compose evs hevs
    · intro m h
      rw [hca] at h
      simp at h
  | panics msg =>
    have hca : createActions e bs acsNames = (evs, ExecResult.panics msg) := by
      simp only [createActions]
      rw [hloop]
    refine ⟨?_, ?_, ?_⟩
    · intro acs h
      rw [hca] at h
      simp at h
    · intro m h
      rw [hca] at h
      simp at h
    · intro m h
      rw [hca]
      exact countRegister_of_compose evs hevs

/-- Witness for C1: the sample batch succeeds and its trace is a
register-free prefix followed by exactly one registration carrying the
batch's tracked artifacts. -/
theorem c1_batch_atomic_registration_witness :
    ∃ evs, (createActions sampleEnv [] ["verify"]).1 =
        evs ++ [Event.registerArtifacts (trackedOfActions sampleActions)] ∧
      countRegister evs = 0 :=
  (c1_batch_atomic_registration sampleEnv [] ["verify"]).1 sampleActions (by decide)

/-- C5: when every requested name before a missing one resolves and
composes successfully, the batch build fails at the missing name with an
error identifying it, returns no actions, processes no later names, and
registers no tracked artifacts (the trace holds only the earlier
compositions). -/
theorem c5_missing_action_aborts_batch (e : ExecEnv) (bs : List Artifact)
    (pre : List String) (aName : String) (post : List String)
    (hmiss : mapLookup e.acsCfgByName aName = none)
    (hpre : ∀ n ∈ pre, ∃ aCfg, mapLookup e.acsCfgByName n = some aCfg ∧
      ∃ jm, getJobManifest e aCfg.JobManifestPath aCfg.Overrides = ExecResult.ok jm) :
    createActions e bs (pre ++ aName :: post) =
      (pre.map Event.composeManifest,
       ExecResult.err ("action " ++ aName ++ " not found for k8s execution mode")) := by
  simp only [createActions]
  rw [createActionsLoop_missing e (bs.foldl (fun m b => mapInsert m b.ImageName b) [])
    pre aName post hmiss hpre]

/-- Witness for C5 (Scenario C): requesting the unknown name "missing"
yields the identifying error, an empty trace and no actions. -/
theorem c5_missing_action_aborts_batch_witness :
    createActions sampleEnv [] ([] ++ "missing" :: []) =
      (([] : List String).map Event.composeManifest,
       ExecResult.err ("action " ++ "missing" ++ " not found for k8s execution mode")) :=
  c5_missing_action_aborts_batch sampleEnv [] [] "missing" [] (by decide) (by simp)

/-- C6: the reachability probe is always the first recorded side effect;
a failing probe aborts `PrepareActions` with a wrapped connectivity error
before any composition, logger start or registration; a successful probe
starts the log streamer before any action is built. -/
theorem c6_prepare_probe_then_logger (e : ExecEnv) (bs : List Artifact)
    (acsNames : List String) :
    ((PrepareActions e bs acsNames).1.head? = some Event.clusterProbe) ∧
    (∀ m, e.collabs.reachabilityErr = some m →
       PrepareActions e bs acsNames =
         ([Event.clusterProbe], ExecResult.err ("unable to connect to Kubernetes: " ++ m))) ∧
    (e.collabs.reachabilityErr = none →
       (PrepareActions e bs acsNames).1 =
           Event.clusterProbe :: Event.loggerStart :: (createActions e bs acsNames).1 ∧
         (PrepareActions e bs acsNames).2 = (createActions e bs acsNames).2 ∧
         ∀ ev ∈ (createActions e bs acsNames).1,
           ev ≠ Event.clusterProbe ∧ ev ≠ Event.loggerStart) := by
  have hsome : ∀ m, e.collabs.reachabilityErr = some m →
      PrepareActions e bs acsNames =
        ([Event.clusterProbe], ExecResult.err ("unable to connect to Kubernetes: " ++ m)) := by
    intro m hm
    unfold PrepareActions
    rw [hm]
  have hnone : e.collabs.reachabilityErr = none →
      PrepareActions e bs acsNames =
        (Event.clusterProbe :: Event.loggerStart :: (createActions e bs acsNames).1,
         (createActions e bs acsNames).2) := by
    intro hm
    unfold PrepareActions
    rw [hm]
  have hevents : ∀ ev ∈ (createActions e bs acsNames).1,
      ev ≠ Event.clusterProbe ∧ ev ≠ Event.loggerStart := by
    intro ev hev
    rcases hloop : createActionsLoop e (bs.foldl (fun m b => mapInsert m b.ImageName b) [])
        acsNames with ⟨evs, res⟩
    have hcomp := createActionsLoop_events e
      (bs.foldl (fun m b => mapInsert m b.ImageName b) []) acsNames
    rw [hloop] at hcomp
    have hof : ∀ ev ∈ evs, ev ≠ Event.clusterProbe ∧ ev ≠ Event.loggerStart := by
      intro ev hev
      have := hcomp ev hev
      cases ev <;> simp_all [Event.isCompose]
    simp only [createActions] at hev
    rw [hloop] at hev
    cases res with
    | ok p =>
      obtain ⟨acs', toTrack⟩ := p
      simp at hev
      rcases hev with hev | hev
      · exact hof ev hev
      · simp [hev]
    | err msg => exact hof ev hev
    | panics msg => exact hof ev hev
  refine ⟨?_, hsome, fun hm => ⟨by rw [hnone hm], by rw [hnone hm], hevents⟩⟩
  cases hr : e.collabs.reachabilityErr with
  | some m =>
    rw [hsome m hr]
    rfl
  | none =>
    rw [hnone hr]
    rfl

/-- Witness for C6: the unreachable environment fails with the wrapped
connectivity error and an all-probe trace; the reachable one starts the
logger right after the probe. -/
theorem c6_prepare_probe_then_logger_witness :
    (PrepareActions unreachableEnv [] ["verify"] =
       ([Event.clusterProbe],
        ExecResult.err ("unable to connect to Kubernetes: " ++ "connection refused"))) ∧
    (PrepareActions sampleEnv [] ["verify"]).1 =
      Event.clusterProbe :: Event.loggerStart :: (createActions sampleEnv [] ["verify"]).1 :=
  ⟨(c6_prepare_probe_then_logger unreachableEnv [] ["verify"]).2.1 "connection refused" rfl,
   ((c6_prepare_probe_then_logger sampleEnv [] ["verify"]).2.2 rfl).1⟩

/-- C7: a successful batch build returns one action per requested name,
in request order; each action carries its config's name, timeout and
fail-fast flag, and its task list follows the config's container
declarations in order. -/
theorem c7_ordered_actions_and_tasks (e : ExecEnv) (bs : List Artifact)
    (acsNames : List String) (acs : List Action)
    (h : (createActions e bs acsNames).2 = ExecResult.ok acs) :
    acs.length = acsNames.length ∧
    ∀ i (hi : i < acsNames.length) (hi' : i < acs.length),
      ∃ aCfg, mapLookup e.acsCfgByName (acsNames.get ⟨i, hi⟩) = some aCfg ∧
        (acs.get ⟨i, hi'⟩).name = aCfg.Name ∧
        (acs.get ⟨i, hi'⟩).timeout = aCfg.Timeout ∧
        (acs.get ⟨i, hi'⟩).isFailFast = aCfg.IsFailFast ∧
        (acs.get ⟨i, hi'⟩).tasks.map Task.cfg = aCfg.Containers := by
  rcases hloop : createActionsLoop e (bs.foldl (fun m b => mapInsert m b.ImageName b) [])
      acsNames with ⟨evs, res⟩
  simp only [createActions] at h
  rw [hloop] at h
  cases res with
  | ok p =>
    obtain ⟨acs', toTrack⟩ := p
    simp at h
    subst h
    exact createActionsLoop_ok_struct e
      (bs.foldl (fun m b => mapInsert m b.ImageName b) []) acsNames evs acs' toTrack hloop
  | err msg => simp at h
  | panics msg => simp at h

/-- Witness for C7: the sample batch returns the single action "verify"
with its config's timeout, fail-fast flag and container. -/
theorem c7_ordered_actions_and_tasks_witness :
    ∃ aCfg, mapLookup sampleEnv.acsCfgByName ((["verify"] : List String).get ⟨0, by decide⟩) =
        some aCfg ∧
      (sampleActions.get ⟨0, by decide⟩).name = aCfg.Name ∧
      (sampleActions.get ⟨0, by decide⟩).timeout = aCfg.Timeout ∧
      (sampleActions.get ⟨0, by decide⟩).isFailFast = aCfg.IsFailFast ∧
      (sampleActions.get ⟨0, by decide⟩).tasks.map Task.cfg = aCfg.Containers :=
  (c7_ordered_actions_and_tasks sampleEnv [] ["verify"] sampleActions (by decide)).2
    0 (by decide) (by decide)

end K8sJob
